import Mathlib

set_option maxRecDepth 10000

/- Batteries marks the `Rat` arithmetic operations `@[irreducible]`, which
blocks `decide`-style evaluation of concrete injection runs; the kernel is
unaffected by reducibility, so restoring the default transparency only lets
elaboration see what the kernel already checks. -/
set_option allowUnsafeReducibility true
attribute [local semireducible] Rat.mul Rat.add Rat.sub Rat.inv Rat.ofScientific

/-!
Verification of the OSTRICH-SWMM injection engine (`ostrich_swmm/inject.py`).

The SWMM input model is a mapping from section names to sections; a section is
an ordered list of lines, each holding a positional list of field values and an
optional comment.  Numeric fields are modelled as rationals: parsing the
line-oriented text format (and Python `float()`) is the external reader's
concern, so numeric fields arrive already parsed; applying `float()` to a
non-numeric value is modelled as the `badValue` error.
-/

/-- A positional field value in a SWMM input line: a string or a number. -/
inductive Value
  | s (v : String)
  | n (v : ℚ)
deriving DecidableEq

/-- Python `float()` on a field value: numbers parse to themselves, strings are
modelled as unparseable (the external reader supplies numeric fields as
numbers). -/
def Value.toRat? : Value → Option ℚ
  | .n q => some q
  | .s _ => none

/-- A line of a SWMM input section: positional values plus an optional comment. -/
structure Line where
  values : List Value
  comment : Option String
deriving DecidableEq

/-- A SWMM input section: ordered lines plus an optional section comment. -/
structure SwmmSection where
  lines : List Line
  comment : Option String
deriving DecidableEq

/-- The sections of a SWMM input relevant to injection, plus the unit system.
Modelled from the spec: `si.get_unit_system` (external `swmm.input` module)
reads the model's unit-system tag, carried here as the `unitSystem` field. -/
structure SwmmInput where
  subcatchments : Option SwmmSection
  lidControls : Option SwmmSection
  lidUsage : Option SwmmSection
  polygons : Option SwmmSection
  unitSystem : String
deriving DecidableEq

/-- Modelled from the spec: positional index of the name field of a
SUBCATCHMENTS line, per the external section schema `si.data_indices`
(standard SWMM layout). -/
def scNameIndex : ℕ := 0

/-- Modelled from the spec: positional index of the area field of a
SUBCATCHMENTS line, per the external section schema (standard SWMM layout). -/
def scAreaIndex : ℕ := 3

/-- Modelled from the spec: positional index of the impervious-fraction
(percent) field of a SUBCATCHMENTS line, per the external section schema. -/
def scImpervIndex : ℕ := 4

/-- Modelled from the spec: positional index of the LID-type name field of a
LID_CONTROLS line, per the external section schema. -/
def lidControlsNameIndex : ℕ := 0

/-- Modelled from the spec: positional index of the structural-category code
field of a LID_CONTROLS line, per the external section schema. -/
def lidControlsTypeIndex : ℕ := 1

/-- Modelled from the spec: positional index of the subcatchment name in a
POLYGONS line, per the external section schema. -/
def polygonsScIndex : ℕ := 0

/-- Modelled from the spec: positional index of the x coordinate in a
POLYGONS line, per the external section schema. -/
def polygonsXIndex : ℕ := 1

/-- Modelled from the spec: positional index of the y coordinate in a
POLYGONS line, per the external section schema. -/
def polygonsYIndex : ℕ := 2

/-- A map coordinate point. -/
abbrev Point := ℚ × ℚ

/-- A zone boundary polygon: the ordered list of its vertices. -/
abbrev Polygon := List Point

/-- The check `line['values'] and line['values'][idx] == name` used when
scanning a section for a line by name. -/
def lineMatchesName (idx : ℕ) (name : String) (line : Line) : Bool :=
  !line.values.isEmpty && decide (line.values.get? idx = some (Value.s name))

/-- `get_subcatchment_definition`: find a subcatchment's field values by name,
by linear scan over the SUBCATCHMENTS section; `none` when the section is
absent or no line matches. -/
def getSubcatchmentDefinition (inp : SwmmInput) (scName : String) :
    Option (List Value) :=
  match inp.subcatchments with
  | none => none
  | some sec => (sec.lines.find? (lineMatchesName scNameIndex scName)).map Line.values

/-- Append a vertex to the polygon recorded under a subcatchment name,
creating the entry at the end on first use (`defaultdict(list)` in
insertion order). -/
def appendVertex : List (String × Polygon) → String → Point → List (String × Polygon)
  | [], name, pt => [(name, [pt])]
  | (m, ps) :: rest, name, pt =>
    if m = name then (m, ps ++ [pt]) :: rest
    else (m, ps) :: appendVertex rest name pt

/-- `extract_subcatchment_polygons`: group the POLYGONS section's vertex lines
by subcatchment name.  Lines with no values are skipped, as in the source;
lines whose coordinate fields are missing or non-numeric are also skipped
(the external reader guarantees well-formed records). -/
def extractSubcatchmentPolygons (inp : SwmmInput) : List (String × Polygon) :=
  let polyLines := match inp.polygons with
    | none => []
    | some sec => sec.lines
  polyLines.foldl (fun acc line =>
    match line.values.get? polygonsScIndex,
        (line.values.getD polygonsXIndex (Value.s "")).toRat?,
        (line.values.getD polygonsYIndex (Value.s "")).toRat? with
    | some (Value.s name), some x, some y => appendVertex acc name (x, y)
    | _, _, _ => acc) []

/-- The errors injection can raise: `ConfigException` with its message, the
placement `ValueError` carrying the offending coordinates, Python
`ZeroDivisionError` (new host area exactly zero), and `badValue` for
`float()`/missing-key failures precluded by the external schema validation. -/
inductive InjectError
  | config (msg : String)
  | placement (x y : ℚ)
  | zeroDivision
  | badValue
deriving DecidableEq

/-- `get_subcatchment_from_map_coords`: return the first subcatchment (in the
geometry index's iteration order) whose polygon contains the point, or raise
the placement error carrying the offending coordinates.  The point-in-polygon
test (`shapely`'s strict containment) is an external collaborator, passed in
as `contains`. -/
def getSubcatchmentFromMapCoords (contains : Polygon → Point → Bool)
    (coordinates : Point) (subcatchments : List (String × Polygon)) :
    Except InjectError String :=
  match subcatchments.find? (fun sp => contains sp.2 coordinates) with
  | some sp => .ok sp.1
  | none => .error (.placement coordinates.1 coordinates.2)

/-- A LID's declared location: a subcatchment name, a map coordinate, or both
once coordinate resolution has filled the name in. -/
structure LidLocation where
  subcatchment : Option String
  map : Option Point
deriving DecidableEq

/-- A LID's optional drain target: a subcatchment name, a network node name,
or a map coordinate resolved to a subcatchment during injection. -/
structure LidDrainTo where
  subcatchment : Option String
  node : Option String
  map : Option Point
deriving DecidableEq

/-- One LID specification from the parameter document. -/
structure Lid where
  type : String
  location : LidLocation
  drainTo : Option LidDrainTo
  number : ℕ
  area : ℚ
  width : ℚ
  initSat : ℚ
  fromImp : ℚ
  toPerv : ℚ
  rptFile : Option String
deriving DecidableEq

/-- The parameter document: an ordered list of LID specifications. -/
structure InputParameters where
  lids : List Lid
deriving DecidableEq

/-- Modelled from the spec: the external JSON-Schema validation of the
parameter document (`parameters.schema.json` is not part of the core), which
guarantees per-unit areas are non-negative. -/
def ValidParameters (p : InputParameters) : Prop :=
  ∀ lid ∈ p.lids, 0 ≤ lid.area

instance (p : InputParameters) : Decidable (ValidParameters p) :=
  inferInstanceAs (Decidable (∀ lid ∈ p.lids, 0 ≤ lid.area))

/-- The in-flight state of one injection run: the mutated model, the per-type
instance counter, the warnings logged so far, and the lazily built geometry
index. -/
structure InjState where
  input : SwmmInput
  counter : String → ℕ
  warnings : List String
  scPolygons : Option (List (String × Polygon))

/-- The instance id `'{0}_{1}'.format(lid_type, lid_counter[lid_type])`. -/
def mkLidId (ty : String) (count : ℕ) : String :=
  ty ++ "_" ++ Nat.repr count

/-- The candidate child-subcatchment names tried by the collision loop:
`base##id` first, then `base##id###k` for k = 1, 2, .... -/
def childScName (base id : String) : ℕ → String
  | 0 => base ++ "##" ++ id
  | k + 1 => base ++ "##" ++ id ++ "###" ++ Nat.repr (k + 1)

/-- The name-collision loop: starting at candidate `k`, return the first
candidate not present among the model's subcatchments.  The loop in the
source terminates because candidate names grow without bound; `fuel` is an
upper bound on the iterations needed, supplied below. -/
def generateLidScName (inp : SwmmInput) (base id : String) : ℕ → ℕ → String
  | 0, k => childScName base id k
  | fuel + 1, k =>
    if getSubcatchmentDefinition inp (childScName base id k) = none then
      childScName base id k
    else
      generateLidScName inp base id fuel (k + 1)

/-- The length of the name-field string of a line (0 if absent). -/
def lineNameLen (line : Line) : ℕ :=
  match line.values.get? scNameIndex with
  | some (Value.s s) => s.length
  | _ => 0

/-- The subcatchment lines of the model (empty when the section is absent). -/
def scLines (inp : SwmmInput) : List Line :=
  match inp.subcatchments with
  | none => []
  | some sec => sec.lines

/-- The longest name-field string among the model's subcatchment lines. -/
def maxScNameLen (inp : SwmmInput) : ℕ :=
  (scLines inp).foldr (fun l m => max (lineNameLen l) m) 0

/-- Iteration bound for the name-collision loop: by the time the candidate
index reaches `10 ^ maxScNameLen inp`, the candidate name is longer than
every existing subcatchment name, hence fresh. -/
def nameSearchFuel (inp : SwmmInput) : ℕ :=
  10 ^ maxScNameLen inp + 1

/-- Conversion factor from the unit system tag to the number of LID-area
units per zone-area unit: 1 acre = 43560 ft² (US), 1 hectare = 10000 m² (SI);
`none` for an unknown tag. -/
def scAreaPerLidArea : String → Option ℚ
  | "US" => some 43560
  | "SI" => some 10000
  | _ => none

/-- The zone split of lines 218–272 of `inject.py`.  `lidScArea` is the LID's
total area already converted to the zone-area unit.  On success, returns the
child zone's values (a positional copy of the host with name, area and
impervious fraction replaced) and the host's updated values.  On error,
returns the host values as mutated so far (the source mutates the live
record before each check) together with the raised error. -/
def splitZone (lidId baseName lidScName : String) (baseVals : List Value)
    (lidScArea : ℚ) :
    Except (List Value × InjectError) (List Value × List Value) :=
  let lidSc := baseVals.set scNameIndex (Value.s lidScName)
  match (baseVals.getD scAreaIndex (Value.s "")).toRat? with
  | none => .error (baseVals, .badValue)
  | some baseArea =>
    let newBaseArea := baseArea - lidScArea
    let lidSc := lidSc.set scAreaIndex (Value.n lidScArea)
    let base1 := baseVals.set scAreaIndex (Value.n newBaseArea)
    if newBaseArea < 0 then
      .error (base1, .config ("LID \"" ++ lidId ++ "\" pushes subcatchment \""
        ++ baseName ++ "\" below 0 area."))
    else
      match (base1.getD scImpervIndex (Value.s "")).toRat? with
      | none => .error (base1, .badValue)
      | some imperv =>
        let baseImpervArea := imperv / 100 * baseArea
        let newBaseImpervArea := baseImpervArea - lidScArea
        if newBaseArea = 0 then
          .error (base1, .zeroDivision)
        else
          let newImperv := newBaseImpervArea / newBaseArea * 100
          let lidSc := lidSc.set scImpervIndex (Value.n 0)
          let base2 := base1.set scImpervIndex (Value.n newImperv)
          if newImperv < 0 then
            .error (base2, .config ("Subcatchment \"" ++ baseName
              ++ "\" does not have enough impervious land left to hold LID \""
              ++ lidId ++ "\"."))
          else
            .ok (lidSc, base2)

/-- Replace the values of the first line matching a subcatchment name (the
source mutates, in place, the list object found by the name scan). -/
def replaceFirstScLine : List Line → String → List Value → List Line
  | [], _, _ => []
  | l :: ls, name, newVals =>
    if lineMatchesName scNameIndex name l then { l with values := newVals } :: ls
    else l :: replaceFirstScLine ls name newVals

/-- Write back a subcatchment's mutated values into the model. -/
def setSubcatchmentValues (inp : SwmmInput) (scName : String)
    (newVals : List Value) : SwmmInput :=
  match inp.subcatchments with
  | none => inp
  | some sec =>
    let sec' := { sec with lines := replaceFirstScLine sec.lines scName newVals }
    { inp with subcatchments := some sec' }

/-- Append a line to the SUBCATCHMENTS section. -/
def appendSubcatchmentLine (inp : SwmmInput) (line : Line) : SwmmInput :=
  match inp.subcatchments with
  | none => inp
  | some sec =>
    { inp with subcatchments := some ({ sec with lines := sec.lines ++ [line] }) }

/-- The warning logged for a LID type whose structural category is not
rain-barrel-class. -/
def unsupportedTypeWarning (code : Value) : String :=
  "LID type \"" ++ (match code with | Value.s s => s | Value.n _ => "")
    ++ "\" is not directly supported by this module. Manual adjustments to "
    ++ "other objects, such as subcatchments, may be necessary."

/-- The positional values of a LID_USAGE record (lines 300–311). -/
def usageValues (sc : String) (drain : Option LidDrainTo) (lid : Lid) :
    List Value :=
  let drainStr := match drain with
    | none => ""
    | some dt =>
      match dt.subcatchment with
      | some s => s
      | none => match dt.node with
        | some nd => nd
        | none => ""
  [Value.s sc, Value.s lid.type, Value.n lid.number, Value.n lid.area,
    Value.n lid.width, Value.n lid.initSat, Value.n lid.fromImp,
    Value.n lid.toPerv, Value.s (lid.rptFile.getD ""), Value.s drainStr]

/-- Append the LID's usage record, creating the LID_USAGE section when absent
(lines 292–322).  A missing resolved subcatchment would be a `KeyError`,
modelled as `badValue` (the external schema precludes it). -/
def appendUsage (st : InjState) (loc : LidLocation) (drain : Option LidDrainTo)
    (lid : Lid) : InjState × Option InjectError :=
  match loc.subcatchment with
  | none => (st, some .badValue)
  | some sc =>
    let usage := match st.input.lidUsage with
      | none => ({ lines := [], comment := none } : SwmmSection)
      | some u => u
    let usage := { usage with
      lines := usage.lines ++ [({ values := usageValues sc drain lid, comment := none } : Line)] }
    ({ st with input := { st.input with lidUsage := some usage } }, none)

/-- Resolve a map coordinate to a subcatchment name, building the geometry
index lazily on first use (the index stays cached even when resolution
fails). -/
def resolveMapCoords (contains : Polygon → Point → Bool) (st : InjState)
    (pt : Point) : InjState × Except InjectError String :=
  let polys := match st.scPolygons with
    | some ps => ps
    | none => extractSubcatchmentPolygons st.input
  ({ st with scPolygons := some polys },
    getSubcatchmentFromMapCoords contains pt polys)

/-- Resolve a LID's location (lines 138–144): when it carries map
coordinates, look the containing subcatchment up and fill the name in. -/
def resolveLidLocation (contains : Polygon → Point → Bool) (st : InjState)
    (lid : Lid) : InjState × Except InjectError LidLocation :=
  match lid.location.map with
  | none => (st, .ok lid.location)
  | some pt =>
    match resolveMapCoords contains st pt with
    | (st1, .ok sc) => (st1, .ok ({ lid.location with subcatchment := some sc }))
    | (st1, .error e) => (st1, .error e)

/-- Resolve a LID's drain target (lines 147–153): when it carries map
coordinates, look the containing subcatchment up and fill the name in. -/
def resolveLidDrainTo (contains : Polygon → Point → Bool) (st : InjState)
    (lid : Lid) : InjState × Except InjectError (Option LidDrainTo) :=
  match lid.drainTo with
  | none => (st, .ok none)
  | some dt =>
    match dt.map with
    | none => (st, .ok (some dt))
    | some pt =>
      match resolveMapCoords contains st pt with
      | (st1, .ok sc) => (st1, .ok (some ({ dt with subcatchment := some sc })))
      | (st1, .error e) => (st1, .error e)

/-- The rain-barrel branch (lines 184–282 followed by the usage append): look
the host subcatchment up, generate the child name, convert units, split the
zone, write the mutated host back, append the child record, and append the
usage record pointing at the child. -/
def injectRbLid (st : InjState) (loc : LidLocation) (drain : Option LidDrainTo)
    (lid : Lid) (lidId : String) : InjState × Option InjectError :=
  match loc.subcatchment with
  | none => (st, some .badValue)
  | some baseName =>
    match getSubcatchmentDefinition st.input baseName with
    | none =>
      (st, some (.config ("Subcatchment \"" ++ baseName ++ "\" not found.")))
    | some baseVals =>
      let lidScName :=
        generateLidScName st.input baseName lidId (nameSearchFuel st.input) 0
      match scAreaPerLidArea st.input.unitSystem with
      | none =>
        (st, some (.config ("Unknown unit system \""
          ++ st.input.unitSystem ++ "\".")))
      | some factor =>
        let lidScArea := (lid.number : ℚ) * lid.area / factor
        match splitZone lidId baseName lidScName baseVals lidScArea with
        | .error (curBase, e) =>
          ({ st with input := setSubcatchmentValues st.input baseName curBase },
            some e)
        | .ok (lidScVals, newBaseVals) =>
          let inp1 := setSubcatchmentValues st.input baseName newBaseVals
          let lidScLine : Line :=
            { values := lidScVals,
              comment := some (Nat.repr lid.number
                ++ " LID units. (Added by OSTRICH-SWMM.)") }
          let st1 := { st with input := appendSubcatchmentLine inp1 lidScLine }
          appendUsage st1 ({ loc with subcatchment := some lidScName }) drain lid

/-- Process one LID specification: the body of the `for lid in lids` loop of
`inject_parameters_into_input` (lines 136–322).  Returns the state as mutated
so far and the error raised, if any. -/
def injectLid (contains : Polygon → Point → Bool) (st : InjState) (lid : Lid) :
    InjState × Option InjectError :=
  match resolveLidLocation contains st lid with
  | (st1, .error e) => (st1, some e)
  | (st1, .ok loc) =>
    match resolveLidDrainTo contains st1 lid with
    | (st2, .error e) => (st2, some e)
    | (st2, .ok drain) =>
      match st2.input.lidControls with
      | none =>
        (st2, some (.config "There are no LID controls defined in the SWMM input file."))
      | some lidControls =>
        let typeDefs := lidControls.lines.filter
          (fun line => lineMatchesName lidControlsNameIndex lid.type line)
        match typeDefs with
        | [] =>
          (st2, some (.config ("LID type \"" ++ lid.type
            ++ "\" not found in SWMM input file.")))
        | d0 :: _ =>
          let count := st2.counter lid.type + 1
          let newCounter := fun t => if t = lid.type then count else st2.counter t
          let st3 := { st2 with counter := newCounter }
          let lidId := mkLidId lid.type count
          let code := d0.values.getD lidControlsTypeIndex (Value.s "")
          if code = Value.s "RB" then
            injectRbLid st3 loc drain lid lidId
          else
            let st4 := { st3 with warnings := st3.warnings ++ [unsupportedTypeWarning code] }
            appendUsage st4 loc drain lid

/-- Fold `injectLid` over the document's LIDs, stopping at the first error
(a raised exception aborts `inject_parameters_into_input`, leaving the model
as mutated so far). -/
def injectLids (contains : Polygon → Point → Bool) :
    InjState → List Lid → InjState × Option InjectError
  | st, [] => (st, none)
  | st, lid :: rest =>
    match injectLid contains st lid with
    | (st', none) => injectLids contains st' rest
    | (st', some e) => (st', some e)

/-- The fresh state at the start of an injection run. -/
def initState (inp : SwmmInput) : InjState :=
  { input := inp, counter := fun _ => 0, warnings := [], scPolygons := none }

/-- `inject_parameters_into_input`: run the injection over the whole parameter
document (schema validation of the document is the external collaborator's
step, modelled by the `ValidParameters` hypothesis where needed). -/
def injectParametersIntoInput (contains : Polygon → Point → Bool)
    (params : InputParameters) (inp : SwmmInput) : InjState × Option InjectError :=
  injectLids contains (initState inp) params.lids

/-- The LID_USAGE lines of a model (empty when the section is absent). -/
def usageLines (inp : SwmmInput) : List Line :=
  match inp.lidUsage with
  | none => []
  | some sec => sec.lines

/-- The area field of a zone record, parsed. -/
def areaVal (vals : List Value) : Option ℚ :=
  (vals.getD scAreaIndex (Value.s "")).toRat?

/-- The impervious-fraction (percent) field of a zone record, parsed. -/
def impervVal (vals : List Value) : Option ℚ :=
  (vals.getD scImpervIndex (Value.s "")).toRat?

/-- The name-field value of a line, when present. -/
def lineName? (l : Line) : Option Value :=
  l.values.get? scNameIndex

/-- The decimal value of a digit character (inverse of `Nat.digitChar` on
decimal digits); used to state the correctness of `Nat.repr`, on which the
generated identifiers rely. -/
def digitVal (c : Char) : ℕ :=
  c.toNat - 48

/-- Read a decimal digit string back into a number. -/
def readDigits (l : List Char) : ℕ :=
  l.foldl (fun a c => 10 * a + digitVal c) 0

/-- Non-negativity of an optional parsed field value (vacuous when the field
is absent or non-numeric). -/
def OptNonneg : Option ℚ → Prop
  | none => True
  | some q => 0 ≤ q

instance : DecidablePred OptNonneg := fun o =>
  match o with
  | none => isTrue trivial
  | some q => inferInstanceAs (Decidable (0 ≤ q))

/-- A zone record's parsed area and impervious-fraction fields are
non-negative. -/
def ZoneOk (l : Line) : Prop :=
  OptNonneg (areaVal l.values) ∧ OptNonneg (impervVal l.values)

instance (l : Line) : Decidable (ZoneOk l) :=
  inferInstanceAs (Decidable (_ ∧ _))

/-- A zone record created by injection: area present and non-negative,
impervious fraction present and in [0, 1] (it is in fact written as 0). -/
def CreatedZoneOk (l : Line) : Prop :=
  (∃ a, areaVal l.values = some a ∧ 0 ≤ a) ∧
  (∃ f, impervVal l.values = some f ∧ 0 ≤ f ∧ f ≤ 1)

/-- The invariant injection actually maintains for the records it creates:
area present and non-negative, impervious fraction written as exactly 0
(which stays 0 under further splits). -/
def CreatedZoneStrong (l : Line) : Prop :=
  (∃ a, areaVal l.values = some a ∧ 0 ≤ a) ∧ impervVal l.values = some 0

/-- The number of LIDs of a given type in a document prefix: the value the
per-type running counter reaches after processing it. -/
def countType (lids : List Lid) (ty : String) : ℕ :=
  (lids.filter (fun l => decide (l.type = ty))).length


deriving instance DecidableEq for Except

/-- Fixture: host zone "S1", area 2.0 (hectares under SI), 80 % impervious,
standard SWMM field layout. -/
def s1Line : Line :=
  { values := [Value.s "S1", Value.s "R1", Value.s "Out1", Value.n 2, Value.n 80,
      Value.n 500, Value.n (1/2), Value.n 0],
    comment := none }

/-- Fixture: LID_CONTROLS catalog line declaring type "RB" with
structural-category code "RB" (rain barrel). -/
def rbCatalogLine : Line :=
  { values := [Value.s "RB", Value.s "RB"], comment := none }

/-- Fixture: LID_CONTROLS catalog line declaring type "IT" with a
structural-category code other than "RB". -/
def itCatalogLine : Line :=
  { values := [Value.s "IT", Value.s "IT"], comment := none }

/-- Fixture: an SI-unit model holding only zone "S1" and the "RB" catalog. -/
def scenario1Input : SwmmInput :=
  { subcatchments := some { lines := [s1Line], comment := none },
    lidControls := some { lines := [rbCatalogLine], comment := none },
    lidUsage := none,
    polygons := none,
    unitSystem := "SI" }

/-- Fixture: one rain-barrel LID of 50 m², 1 unit, located in "S1". -/
def scenario1Lid : Lid :=
  { type := "RB", location := { subcatchment := some "S1", map := none },
    drainTo := none, number := 1, area := 50, width := 10, initSat := 0,
    fromImp := 25, toPerv := 1, rptFile := none }

/-- Fixture: a rain barrel of 25000 m² = 2.5 ha, exceeding S1's 2 ha. -/
def oversizedLid : Lid :=
  { scenario1Lid with area := 25000 }

/-- Fixture: the SI model with an unrecognized unit-system tag. -/
def unknownUnitInput : SwmmInput :=
  { scenario1Input with unitSystem := "FURLONG" }

/-- Fixture: the model for the unsupported-type scenario ("IT" catalog). -/
def scenario6Input : SwmmInput :=
  { scenario1Input with lidControls := some { lines := [itCatalogLine], comment := none } }

/-- Fixture: the unsupported-type model with an unrecognized unit tag. -/
def unknownUnitItInput : SwmmInput :=
  { scenario6Input with unitSystem := "FURLONG" }

/-- Fixture: an infiltration-trench LID, structurally unsupported. -/
def itLid : Lid :=
  { scenario1Lid with type := "IT" }

/-- Fixture: a containment test that never holds (no LID in these runs uses
map coordinates). -/
def noPoly : Polygon → Point → Bool := fun _ _ => false

/-- Fixture: a square zone polygon around the origin. -/
def polyA : Polygon := [(0, 0), (4, 0), (4, 4), (0, 4)]

/-- Fixture: a second, disjoint square zone polygon. -/
def polyB : Polygon := [(10, 0), (14, 0), (14, 4), (10, 4)]

/-- Fixture: a two-zone geometry index. -/
def sampleSubs : List (String × Polygon) := [("A", polyA), ("B", polyB)]

/-- Fixture: a containment test satisfied by `polyB` alone. -/
def containsB : Polygon → Point → Bool := fun poly _ => decide (poly = polyB)

/-- Fixture: a containment test satisfied by every polygon. -/
def containsAny : Polygon → Point → Bool := fun _ _ => true


/-- Fixture: the child-zone values produced by splitting "S1" for a 0.005 ha
rain barrel. -/
def c1Child : List Value :=
  [Value.s "S1##RB_1", Value.s "R1", Value.s "Out1", Value.n (1/200), Value.n 0,
    Value.n 500, Value.n (1/2), Value.n 0]

/-- Fixture: the host-zone values written back by that split. -/
def c1NewBase : List Value :=
  [Value.s "S1", Value.s "R1", Value.s "Out1", Value.n (399/200), Value.n (31900/399),
    Value.n 500, Value.n (1/2), Value.n 0]

/-! ### Decimal representation: correctness of `Nat.repr`

The generated identifiers (`mkLidId`, `childScName`) embed decimal renderings
of the running counters; the uniqueness claims reduce to injectivity of
`Nat.repr`, proved here by reading the digit string back. -/

theorem toDigitsCore_shift (n : ℕ) : ∀ fuel ds, n < fuel →
    Nat.toDigitsCore 10 fuel n ds = Nat.toDigitsCore 10 (n + 1) n [] ++ ds := by
  induction n using Nat.strong_induction_on with
  | _ n ih =>
    intro fuel ds h
    match fuel with
    | f + 1 =>
      by_cases hx : n / 10 = 0
      · simp only [Nat.toDigitsCore, hx, if_true, List.singleton_append]
      · have hn : 0 < n := by
          rcases Nat.eq_zero_or_pos n with h0 | h0
          · subst h0; simp at hx
          · exact h0
        have hdiv : n / 10 < n := Nat.div_lt_self hn (by norm_num)
        have h1 : n / 10 < f := by omega
        simp only [Nat.toDigitsCore, hx, if_false]
        rw [ih (n / 10) hdiv (f) _ h1, ih (n / 10) hdiv n _ hdiv]
        simp

theorem toDigits_lt (n : ℕ) (h : n < 10) : Nat.toDigits 10 n = [Nat.digitChar n] := by
  have hx : n / 10 = 0 := Nat.div_eq_of_lt h
  have hm : n % 10 = n := Nat.mod_eq_of_lt h
  simp only [Nat.toDigits, Nat.toDigitsCore, hx, if_true, hm]

theorem toDigits_ge (n : ℕ) (h : 10 ≤ n) :
    Nat.toDigits 10 n = Nat.toDigits 10 (n / 10) ++ [Nat.digitChar (n % 10)] := by
  have hx : ¬ n / 10 = 0 := by
    intro h0
    have := Nat.div_eq_of_lt (show n < 10 by omega)
    omega
  have hdiv : n / 10 < n := Nat.div_lt_self (by omega) (by norm_num)
  have step : Nat.toDigits 10 n = Nat.toDigitsCore 10 n (n / 10) [Nat.digitChar (n % 10)] := by
    simp only [Nat.toDigits, Nat.toDigitsCore, hx, if_false]
  rw [step, toDigitsCore_shift (n / 10) n [Nat.digitChar (n % 10)] hdiv]
  rfl

theorem digitVal_digitChar (d : ℕ) (h : d < 10) : digitVal (Nat.digitChar d) = d := by
  interval_cases d <;> rfl

theorem readDigits_toDigits (n : ℕ) : readDigits (Nat.toDigits 10 n) = n := by
  induction n using Nat.strong_induction_on with
  | _ n ih =>
    by_cases h : n < 10
    · rw [toDigits_lt n h]
      simp [readDigits, digitVal_digitChar n h]
    · push_neg at h
      have hdiv : n / 10 < n := Nat.div_lt_self (by omega) (by norm_num)
      rw [toDigits_ge n h]
      have hmod : n % 10 < 10 := Nat.mod_lt _ (by norm_num)
      simp only [readDigits, List.foldl_append, List.foldl_cons, List.foldl_nil]
      have : List.foldl (fun a c => 10 * a + digitVal c) 0 (Nat.toDigits 10 (n / 10)) = n / 10 :=
        ih (n / 10) hdiv
      rw [this, digitVal_digitChar _ hmod]
      omega

theorem natRepr_injective : Function.Injective Nat.repr := by
  intro m n h
  have hd : Nat.toDigits 10 m = Nat.toDigits 10 n := by
    have := congrArg String.data h
    simpa [Nat.repr, List.asString] using this
  have := congrArg readDigits hd
  rwa [readDigits_toDigits, readDigits_toDigits] at this

theorem natRepr_length_eq (n : ℕ) : (Nat.repr n).length = (Nat.toDigits 10 n).length := rfl

theorem natRepr_pow_length (m : ℕ) : (Nat.repr (10 ^ m)).length = m + 1 := by
  induction m with
  | zero => rfl
  | succ m ih =>
    rw [natRepr_length_eq] at ih ⊢
    rw [toDigits_ge (10 ^ (m + 1)) (by calc (10:ℕ) = 10 ^ 1 := (pow_one 10).symm
      _ ≤ 10 ^ (m + 1) := Nat.pow_le_pow_right (by norm_num) (by omega))]
    have hdiv : 10 ^ (m + 1) / 10 = 10 ^ m := by
      rw [pow_succ]
      exact Nat.mul_div_cancel _ (by norm_num)
    rw [hdiv, List.length_append, ih]
    rfl

/-! ### Freshness of the generated child-subcatchment name -/

theorem lineNameLen_le_foldr (xs : List Line) (x : Line) (hx : x ∈ xs) :
    lineNameLen x ≤ xs.foldr (fun l m => max (lineNameLen l) m) 0 := by
  induction xs with
  | nil => cases hx
  | cons y ys ih =>
    rcases List.mem_cons.mp hx with rfl | hmem
    · exact le_max_left _ _
    · exact le_trans (ih hmem) (le_max_right _ _)

theorem long_name_fresh (inp : SwmmInput) (name : String)
    (h : maxScNameLen inp < name.length) :
    getSubcatchmentDefinition inp name = none := by
  unfold getSubcatchmentDefinition
  cases hs : inp.subcatchments with
  | none => rfl
  | some sec =>
    simp only [Option.map_eq_none', List.find?_eq_none]
    intro l hl
    simp only [lineMatchesName, Bool.and_eq_true, decide_eq_true_eq, Bool.not_eq_true',
      not_and]
    intro _ hname
    exfalso
    have hlen : lineNameLen l = name.length := by
      simp only [lineNameLen, scNameIndex] at hname ⊢
      rw [hname]
    have hmem : l ∈ scLines inp := by
      simp [scLines, hs]
      exact hl
    have := lineNameLen_le_foldr (scLines inp) l hmem
    rw [hlen] at this
    have : name.length ≤ maxScNameLen inp := this
    omega

theorem childScName_long (base id : String) (m : ℕ) :
    m < (childScName base id (10 ^ m)).length := by
  obtain ⟨k, hk⟩ : ∃ k, 10 ^ m = k + 1 := by
    have : 0 < 10 ^ m := Nat.pos_pow_of_pos m (by norm_num)
    exact ⟨10 ^ m - 1, by omega⟩
  rw [hk]
  show m < (base ++ "##" ++ id ++ "###" ++ Nat.repr (k + 1)).length
  have hr : (Nat.repr (k + 1)).length = m + 1 := by
    rw [← hk, natRepr_pow_length]
  rw [String.length_append, hr]
  omega

theorem generateLidScName_spec (inp : SwmmInput) (base id : String) : ∀ fuel k,
    (∃ j, j < fuel ∧ getSubcatchmentDefinition inp (childScName base id (k + j)) = none) →
    getSubcatchmentDefinition inp (generateLidScName inp base id fuel k) = none := by
  intro fuel
  induction fuel with
  | zero =>
    rintro k ⟨j, hj, _⟩
    omega
  | succ f ih =>
    rintro k ⟨j, hj, hfresh⟩
    by_cases h0 : getSubcatchmentDefinition inp (childScName base id k) = none
    · simp only [generateLidScName, if_pos h0]
      exact h0
    · have hj0 : j ≠ 0 := by
        rintro rfl
        exact h0 (by simpa using hfresh)
      simp only [generateLidScName, if_neg h0]
      apply ih (k + 1)
      refine ⟨j - 1, by omega, ?_⟩
      have : k + 1 + (j - 1) = k + j := by omega
      rw [this]
      exact hfresh

theorem generateLidScName_fresh (inp : SwmmInput) (base id : String) :
    getSubcatchmentDefinition inp
      (generateLidScName inp base id (nameSearchFuel inp) 0) = none := by
  apply generateLidScName_spec
  refine ⟨10 ^ maxScNameLen inp, by simp [nameSearchFuel], ?_⟩
  apply long_name_fresh
  simpa using childScName_long base id (maxScNameLen inp)

theorem mkLidId_ne (ty : String) (i j : ℕ) (h : i ≠ j) : mkLidId ty i ≠ mkLidId ty j := by
  intro he
  apply h
  apply natRepr_injective
  have hd := congrArg String.data he
  simp only [mkLidId, String.data_append] at hd
  have := List.append_cancel_left hd
  exact String.ext this

/-! ### Frame lemmas for the injection pipeline -/

theorem resolveMapCoords_input (contains : Polygon → Point → Bool) (st : InjState)
    (pt : Point) : (resolveMapCoords contains st pt).1.input = st.input := rfl

theorem resolveMapCoords_counter (contains : Polygon → Point → Bool) (st : InjState)
    (pt : Point) : (resolveMapCoords contains st pt).1.counter = st.counter := rfl

theorem resolveMapCoords_warnings (contains : Polygon → Point → Bool) (st : InjState)
    (pt : Point) : (resolveMapCoords contains st pt).1.warnings = st.warnings := rfl

theorem resolveLidLocation_state (contains : Polygon → Point → Bool) (st : InjState)
    (lid : Lid) :
    (resolveLidLocation contains st lid).1.input = st.input ∧
    (resolveLidLocation contains st lid).1.counter = st.counter ∧
    (resolveLidLocation contains st lid).1.warnings = st.warnings := by
  unfold resolveLidLocation
  split
  · exact ⟨rfl, rfl, rfl⟩
  split
  all_goals
    rename_i heq
    have h1 := congrArg Prod.fst heq
    refine ⟨?_, ?_, ?_⟩ <;> (rw [← h1]; rfl)

theorem resolveLidDrainTo_state (contains : Polygon → Point → Bool) (st : InjState)
    (lid : Lid) :
    (resolveLidDrainTo contains st lid).1.input = st.input ∧
    (resolveLidDrainTo contains st lid).1.counter = st.counter ∧
    (resolveLidDrainTo contains st lid).1.warnings = st.warnings := by
  unfold resolveLidDrainTo
  split
  · exact ⟨rfl, rfl, rfl⟩
  split
  · exact ⟨rfl, rfl, rfl⟩
  split
  all_goals
    rename_i heq
    have h1 := congrArg Prod.fst heq
    refine ⟨?_, ?_, ?_⟩ <;> (rw [← h1]; rfl)

theorem appendUsage_counter (st : InjState) (loc : LidLocation)
    (drain : Option LidDrainTo) (lid : Lid) :
    (appendUsage st loc drain lid).1.counter = st.counter := by
  unfold appendUsage
  split <;> rfl

theorem appendUsage_warnings (st : InjState) (loc : LidLocation)
    (drain : Option LidDrainTo) (lid : Lid) :
    (appendUsage st loc drain lid).1.warnings = st.warnings := by
  unfold appendUsage
  split <;> rfl

theorem appendUsage_subcatchments (st : InjState) (loc : LidLocation)
    (drain : Option LidDrainTo) (lid : Lid) :
    (appendUsage st loc drain lid).1.input.subcatchments = st.input.subcatchments := by
  unfold appendUsage
  split <;> rfl

theorem injectRbLid_counter (st : InjState) (loc : LidLocation)
    (drain : Option LidDrainTo) (lid : Lid) (lidId : String) :
    (injectRbLid st loc drain lid lidId).1.counter = st.counter := by
  unfold injectRbLid
  dsimp only
  repeat' split
  all_goals rfl

theorem injectLid_counter (contains : Polygon → Point → Bool) (st : InjState)
    (lid : Lid) (st' : InjState)
    (h : injectLid contains st lid = (st', none)) :
    st'.counter = fun t => if t = lid.type then st.counter lid.type + 1 else st.counter t := by
  unfold injectLid at h
  split at h
  · exact absurd (congrArg Prod.snd h) (Option.some_ne_none _)
  rename_i st1 loc heq1
  split at h
  · exact absurd (congrArg Prod.snd h) (Option.some_ne_none _)
  rename_i st2 drain heq2
  have hc1 : st1.counter = st.counter := by
    have h1 : (resolveLidLocation contains st lid).1 = st1 := congrArg Prod.fst heq1
    rw [← h1]
    exact (resolveLidLocation_state contains st lid).2.1
  have hc2 : st2.counter = st1.counter := by
    have h1 : (resolveLidDrainTo contains st1 lid).1 = st2 := congrArg Prod.fst heq2
    rw [← h1]
    exact (resolveLidDrainTo_state contains st1 lid).2.1
  split at h
  · exact absurd (congrArg Prod.snd h) (Option.some_ne_none _)
  dsimp only at h
  split at h
  · exact absurd (congrArg Prod.snd h) (Option.some_ne_none _)
  split at h
  · -- rain-barrel branch
    have hrb := congrArg (fun p => p.1.counter) h
    simp only [injectRbLid_counter] at hrb
    rw [← hrb, hc2, hc1]
  · -- unsupported-type branch
    have hap := congrArg (fun p => p.1.counter) h
    simp only [appendUsage_counter] at hap
    rw [← hap, hc2, hc1]

/-! ### The zone split: success characterization -/

theorem splitZone_ok (lidId baseName lidScName : String) (baseVals : List Value)
    (L : ℚ) (child newBase : List Value)
    (hok : splitZone lidId baseName lidScName baseVals L = .ok (child, newBase)) :
    ∃ A f, (baseVals.getD scAreaIndex (Value.s "")).toRat? = some A ∧
      (baseVals.getD scImpervIndex (Value.s "")).toRat? = some f ∧
      ¬ A - L < 0 ∧ A - L ≠ 0 ∧
      ¬ (f / 100 * A - L) / (A - L) * 100 < 0 ∧
      child = ((baseVals.set scNameIndex (Value.s lidScName)).set scAreaIndex
        (Value.n L)).set scImpervIndex (Value.n 0) ∧
      newBase = (baseVals.set scAreaIndex (Value.n (A - L))).set scImpervIndex
        (Value.n ((f / 100 * A - L) / (A - L) * 100)) := by
  unfold splitZone at hok
  split at hok
  · exact absurd hok (by simp)
  rename_i A hA
  dsimp only at hok
  split at hok
  · exact absurd hok (by simp)
  rename_i hAL
  split at hok
  · exact absurd hok (by simp)
  rename_i f hf
  split at hok
  · exact absurd hok (by simp)
  rename_i hz
  split at hok
  · exact absurd hok (by simp)
  rename_i hneg
  have hf' : (baseVals.getD scImpervIndex (Value.s "")).toRat? = some f := by
    rw [← hf]
    congr 1
    simp [List.getD, scAreaIndex, scImpervIndex, List.getElem?_set]
  refine ⟨A, f, hA, hf', hAL, hz, hneg, ?_, ?_⟩
  · exact (Prod.mk.injEq .. ▸ (Except.ok.injEq .. ▸ hok) : _ ∧ _).1.symm
  · exact (Prod.mk.injEq .. ▸ (Except.ok.injEq .. ▸ hok) : _ ∧ _).2.symm

theorem toRat?_some_lt (l : List Value) (i : ℕ) (q : ℚ)
    (h : (l.getD i (Value.s "")).toRat? = some q) : i < l.length := by
  by_contra hc
  push_neg at hc
  rw [List.getD_eq_default _ _ hc] at h
  simp [Value.toRat?] at h

/-- C1: for every successful rain-barrel-class split, impervious area is
conserved: the host's old impervious fraction times its old area equals the
new fraction times the new area plus the LID's converted area, and the
fraction written back is ((old fraction × old area) − LID area) divided by
(old area − LID area).  Stored field values are percents, so the fraction is
the stored value over 100. -/
theorem claim_C1 (lidId baseName lidScName : String) (baseVals : List Value)
    (L A f : ℚ) (child newBase : List Value)
    (hok : splitZone lidId baseName lidScName baseVals L = .ok (child, newBase))
    (hA : areaVal baseVals = some A) (hf : impervVal baseVals = some f) :
    areaVal newBase = some (A - L) ∧
    ∃ f', impervVal newBase = some f' ∧
      f' / 100 = (f / 100 * A - L) / (A - L) ∧
      f / 100 * A = f' / 100 * (A - L) + L := by
  obtain ⟨A', f', hA', hf', hAL, hz, hneg, hchild, hnew⟩ :=
    splitZone_ok lidId baseName lidScName baseVals L child newBase hok
  unfold areaVal at hA
  unfold impervVal at hf
  rw [hA] at hA'
  rw [hf] at hf'
  obtain rfl : A = A' := Option.some.inj hA'
  obtain rfl : f = f' := Option.some.inj hf'
  have h3 : (3:ℕ) < baseVals.length := toRat?_some_lt _ _ _ hA
  have h4 : (4:ℕ) < baseVals.length := toRat?_some_lt _ _ _ hf
  subst hnew
  refine ⟨?_, (f / 100 * A - L) / (A - L) * 100, ?_, ?_, ?_⟩
  · simp [areaVal, List.getD, List.getElem?_set, scAreaIndex, scImpervIndex, h3,
      Value.toRat?]
  · simp [impervVal, List.getD, List.getElem?_set, scAreaIndex, scImpervIndex,
      h4, Value.toRat?]
  · ring
  · have hc : (f / 100 * A - L) / (A - L) * 100 / 100 * (A - L) = f / 100 * A - L := by
      have h100 : (f / 100 * A - L) / (A - L) * 100 / 100 = (f / 100 * A - L) / (A - L) := by
        ring
      rw [h100, div_mul_cancel₀ _ hz]
    linarith [hc]

/-- C1 witness: the S1 split at 0.005 ha satisfies the conservation law. -/
theorem claim_C1_witness :
    splitZone "RB_1" "S1" "S1##RB_1" s1Line.values (1/200) = .ok (c1Child, c1NewBase) ∧
    areaVal s1Line.values = some 2 ∧ impervVal s1Line.values = some 80 ∧
    (areaVal c1NewBase = some (2 - 1/200) ∧
      ∃ f', impervVal c1NewBase = some f' ∧
        f' / 100 = (80 / 100 * 2 - 1/200) / (2 - 1/200) ∧
        80 / 100 * 2 = f' / 100 * (2 - 1/200) + 1/200) :=
  ⟨by decide, by decide, by decide,
    claim_C1 "RB_1" "S1" "S1##RB_1" s1Line.values (1/200) 2 80 c1Child c1NewBase
      (by decide) (by decide)
      (by decide)⟩

/-- C9: the appended child-zone record is a positional copy of the host
record in which only the name, area and impervious-fraction fields are
replaced; every other field equals the host's field at the time of the
split. -/
theorem claim_C9 (lidId baseName lidScName : String) (baseVals : List Value)
    (L : ℚ) (child newBase : List Value)
    (hok : splitZone lidId baseName lidScName baseVals L = .ok (child, newBase)) :
    (∀ i, i ≠ scNameIndex → i ≠ scAreaIndex → i ≠ scImpervIndex →
      child.get? i = baseVals.get? i) ∧
    child.get? scNameIndex = some (Value.s lidScName) ∧
    child.get? scAreaIndex = some (Value.n L) ∧
    child.get? scImpervIndex = some (Value.n 0) := by
  obtain ⟨A, f, hA, hf, _, _, _, hchild, -⟩ :=
    splitZone_ok lidId baseName lidScName baseVals L child newBase hok
  have h3 : (3:ℕ) < baseVals.length := toRat?_some_lt _ _ _ hA
  have h4 : (4:ℕ) < baseVals.length := toRat?_some_lt _ _ _ hf
  have h0 : (0:ℕ) < baseVals.length := by omega
  subst hchild
  refine ⟨?_, ?_, ?_, ?_⟩
  · intro i h1 h2 h5
    have n1 : scNameIndex ≠ i := Ne.symm h1
    have n2 : scAreaIndex ≠ i := Ne.symm h2
    have n3 : scImpervIndex ≠ i := Ne.symm h5
    simp [List.get?_eq_getElem?, List.getElem?_set, n1, n2, n3]
  · simp [List.get?_eq_getElem?, List.getElem?_set, scNameIndex, scAreaIndex,
      scImpervIndex, h0]
  · simp [List.get?_eq_getElem?, List.getElem?_set, scNameIndex, scAreaIndex,
      scImpervIndex, h3]
  · simp [List.get?_eq_getElem?, List.getElem?_set, scNameIndex, scAreaIndex,
      scImpervIndex, h4]

/-- C9 witness: the S1 split's child record agrees with the host record off
the three replaced fields and holds the new name, area 0.005 and impervious
fraction 0 at those fields. -/
theorem claim_C9_witness :
    splitZone "RB_1" "S1" "S1##RB_1" s1Line.values (1/200) = .ok (c1Child, c1NewBase) ∧
    ((∀ i, i ≠ scNameIndex → i ≠ scAreaIndex → i ≠ scImpervIndex →
      c1Child.get? i = s1Line.values.get? i) ∧
    c1Child.get? scNameIndex = some (Value.s "S1##RB_1") ∧
    c1Child.get? scAreaIndex = some (Value.n (1/200)) ∧
    c1Child.get? scImpervIndex = some (Value.n 0)) :=
  ⟨by decide,
    claim_C9 "RB_1" "S1" "S1##RB_1" s1Line.values (1/200) c1Child c1NewBase
      (by decide)⟩

/-- C4: coordinate placement resolution.  For a point strictly inside exactly
one zone polygon of the index (strict containment supplied by the external
geometry library as `contains`), resolution returns that zone's name; for a
point contained in no polygon it raises the placement error carrying the
offending x and y coordinates (the source embeds them into the `ValueError`
message). -/
theorem claim_C4 (contains : Polygon → Point → Bool) (pt : Point)
    (subs : List (String × Polygon)) :
    ((∀ e ∈ subs, contains e.2 pt = false) →
      getSubcatchmentFromMapCoords contains pt subs =
        .error (.placement pt.1 pt.2)) ∧
    (∀ e ∈ subs, contains e.2 pt = true →
      (∀ e' ∈ subs, contains e'.2 pt = true → e' = e) →
      getSubcatchmentFromMapCoords contains pt subs = .ok e.1) := by
  constructor
  · intro h
    have hn : subs.find? (fun sp => contains sp.2 pt) = none := by
      rw [List.find?_eq_none]
      intro x hx
      simp [h x hx]
    simp [getSubcatchmentFromMapCoords, hn]
  · intro e hx hc huniq
    have hs : (subs.find? (fun sp => contains sp.2 pt)).isSome :=
      List.find?_isSome.mpr ⟨e, hx, hc⟩
    obtain ⟨e', he'⟩ := Option.isSome_iff_exists.mp hs
    have h1 : e' ∈ subs := List.mem_of_find?_eq_some he'
    have h2 : contains e'.2 pt = true := by
      have := List.find?_some he'
      simpa using this
    have he : e' = e := huniq e' h1 h2
    subst he
    simp [getSubcatchmentFromMapCoords, he']

/-- C4 witness: over the two-zone index, a point outside both polygons raises
the placement error carrying (5, 7); a point inside B alone resolves to "B". -/
theorem claim_C4_witness :
    getSubcatchmentFromMapCoords noPoly (5, 7) sampleSubs =
      .error (.placement 5 7) ∧
    getSubcatchmentFromMapCoords containsB (12, 2) sampleSubs = .ok "B" :=
  ⟨(claim_C4 noPoly (5, 7) sampleSubs).1 (by decide),
    (claim_C4 containsB (12, 2) sampleSubs).2 ("B", polyB) (by decide) (by decide)
      (by decide)⟩

/-- C10: when a point lies inside more than one zone polygon, resolution
raises no error and returns the first containing entry in the geometry
index's iteration order; the multiplicity is never detected or reported. -/
theorem claim_C10 (contains : Polygon → Point → Bool) (pt : Point)
    (subs : List (String × Polygon)) (e₁ e₂ : String × Polygon)
    (h₁ : e₁ ∈ subs) (hc₁ : contains e₁.2 pt = true)
    (h₂ : e₂ ∈ subs) (hc₂ : contains e₂.2 pt = true) (hne : e₁ ≠ e₂) :
    ∃ e, subs.find? (fun sp => contains sp.2 pt) = some e ∧
      getSubcatchmentFromMapCoords contains pt subs = .ok e.1 ∧
      contains e.2 pt = true := by
  have hs : (subs.find? (fun sp => contains sp.2 pt)).isSome :=
    List.find?_isSome.mpr ⟨e₁, h₁, hc₁⟩
  obtain ⟨e, he⟩ := Option.isSome_iff_exists.mp hs
  refine ⟨e, he, by simp [getSubcatchmentFromMapCoords, he], ?_⟩
  have := List.find?_some he
  simpa using this

/-- C10 witness: a point inside both sample polygons (under a containment
test satisfied by every polygon) resolves without error to the first zone. -/
theorem claim_C10_witness :
    ("A", polyA) ≠ (("B", polyB) : String × Polygon) ∧
    ∃ e, sampleSubs.find? (fun sp => containsAny sp.2 (2, 2)) = some e ∧
      getSubcatchmentFromMapCoords containsAny (2, 2) sampleSubs = .ok e.1 ∧
      containsAny e.2 (2, 2) = true :=
  ⟨by decide,
    claim_C10 containsAny (2, 2) sampleSubs ("A", polyA) ("B", polyB)
      (by decide) (by decide) (by decide) (by decide) (by decide)⟩

theorem usageLines_setSubcatchmentValues (inp : SwmmInput) (n : String)
    (v : List Value) : usageLines (setSubcatchmentValues inp n v) = usageLines inp := by
  unfold setSubcatchmentValues usageLines
  cases inp.subcatchments <;> rfl

theorem appendUsage_ok (st : InjState) (loc : LidLocation)
    (drain : Option LidDrainTo) (lid : Lid) (sc : String)
    (hsc : loc.subcatchment = some sc) :
    (appendUsage st loc drain lid).2 = none ∧
    (appendUsage st loc drain lid).1.input.subcatchments = st.input.subcatchments ∧
    (appendUsage st loc drain lid).1.warnings = st.warnings ∧
    usageLines (appendUsage st loc drain lid).1.input =
      usageLines st.input ++ [{ values := usageValues sc drain lid, comment := none }] := by
  unfold appendUsage
  rw [hsc]
  cases hu : st.input.lidUsage <;> simp [usageLines, hu]

/-- C7 counterexample: the claim quantifies over every injection run, but the
unit-system check sits inside the rain-barrel branch; a run over a model
whose tag is "FURLONG" (neither "US" nor "SI") that injects one LID of a
non-rain-barrel structural category completes without any error. -/
theorem claim_C7_counterexample :
    unknownUnitItInput.unitSystem ≠ "US" ∧
    unknownUnitItInput.unitSystem ≠ "SI" ∧
    (injectParametersIntoInput noPoly ⟨[itLid]⟩ unknownUnitItInput).2 = none := by
  decide

/-- C7 (amended): for every injection run over a model whose unit-system tag
is neither "US" nor "SI", processing a rain-barrel-class LID that reaches the
unit conversion (catalog code "RB", host zone found) fails with a
configuration error reporting the unknown unit system. -/
theorem claim_C7_amended (contains : Polygon → Point → Bool) (st : InjState)
    (lid : Lid) (ctrl : SwmmSection) (d0 : Line) (rest : List Line)
    (baseName : String) (baseVals : List Value)
    (hmap : lid.location.map = none)
    (hsub : lid.location.subcatchment = some baseName)
    (hdt : lid.drainTo = none)
    (hctrl : st.input.lidControls = some ctrl)
    (hfType : ctrl.lines.filter
      (fun line => lineMatchesName lidControlsNameIndex lid.type line) = d0 :: rest)
    (hcode : d0.values.getD lidControlsTypeIndex (Value.s "") = Value.s "RB")
    (hhost : getSubcatchmentDefinition st.input baseName = some baseVals)
    (hunit : scAreaPerLidArea st.input.unitSystem = none) :
    (injectLid contains st lid).2 =
      some (.config ("Unknown unit system \"" ++ st.input.unitSystem ++ "\".")) := by
  have hloc : resolveLidLocation contains st lid = (st, .ok lid.location) := by
    simp [resolveLidLocation, hmap]
  have hdt2 : resolveLidDrainTo contains st lid = (st, .ok none) := by
    simp [resolveLidDrainTo, hdt]
  have hcode2 : d0.values[lidControlsTypeIndex]?.getD (Value.s "") = Value.s "RB" := by
    simpa [List.getD_eq_getElem?_getD] using hcode
  simp [injectLid, hloc, hdt2, hctrl, hfType, hcode2, injectRbLid, hsub, hhost, hunit]

/-- C7 witness: running the rain-barrel LID against the "FURLONG" model
raises exactly the unknown-unit-system configuration error. -/
theorem claim_C7_witness :
    (injectLid noPoly (initState unknownUnitInput) scenario1Lid).2 =
      some (.config "Unknown unit system \"FURLONG\".") :=
  claim_C7_amended noPoly (initState unknownUnitInput) scenario1Lid
    { lines := [rbCatalogLine], comment := none } rbCatalogLine [] "S1" s1Line.values
    (by decide) (by decide) (by decide) (by decide) (by decide) (by decide)
    (by decide) (by decide)

/-- C2: a rain-barrel-class LID whose total converted area exceeds the host
zone's current area makes injection raise the capacity error, and no record
for that LID is appended to the LID-usage section. -/
theorem claim_C2 (contains : Polygon → Point → Bool) (st : InjState)
    (lid : Lid) (ctrl : SwmmSection) (d0 : Line) (rest : List Line)
    (baseName : String) (baseVals : List Value) (factor A : ℚ)
    (hmap : lid.location.map = none)
    (hsub : lid.location.subcatchment = some baseName)
    (hdt : lid.drainTo = none)
    (hctrl : st.input.lidControls = some ctrl)
    (hfType : ctrl.lines.filter
      (fun line => lineMatchesName lidControlsNameIndex lid.type line) = d0 :: rest)
    (hcode : d0.values.getD lidControlsTypeIndex (Value.s "") = Value.s "RB")
    (hhost : getSubcatchmentDefinition st.input baseName = some baseVals)
    (hunit : scAreaPerLidArea st.input.unitSystem = some factor)
    (hA : areaVal baseVals = some A)
    (hover : A < (lid.number : ℚ) * lid.area / factor) :
    (injectLid contains st lid).2 =
      some (.config ("LID \"" ++ mkLidId lid.type (st.counter lid.type + 1)
        ++ "\" pushes subcatchment \"" ++ baseName ++ "\" below 0 area.")) ∧
    usageLines (injectLid contains st lid).1.input = usageLines st.input := by
  have hloc : resolveLidLocation contains st lid = (st, .ok lid.location) := by
    simp [resolveLidLocation, hmap]
  have hdt2 : resolveLidDrainTo contains st lid = (st, .ok none) := by
    simp [resolveLidDrainTo, hdt]
  have hcode2 : d0.values[lidControlsTypeIndex]?.getD (Value.s "") = Value.s "RB" := by
    simpa [List.getD_eq_getElem?_getD] using hcode
  unfold areaVal at hA
  have hA2 : (baseVals[scAreaIndex]?.getD (Value.s "")).toRat? = some A := by
    simpa [List.getD_eq_getElem?_getD] using hA
  simp [injectLid, hloc, hdt2, hctrl, hfType, hcode2, injectRbLid, hsub, hhost, hunit,
    splitZone, hA2, hover, usageLines_setSubcatchmentValues]

/-- C2 witness: a 2.5 ha rain barrel over the 2 ha zone "S1" raises the
capacity error and leaves the LID-usage section untouched. -/
theorem claim_C2_witness :
    (injectLid noPoly (initState scenario1Input) oversizedLid).2 =
      some (.config "LID \"RB_1\" pushes subcatchment \"S1\" below 0 area.") ∧
    usageLines (injectLid noPoly (initState scenario1Input) oversizedLid).1.input =
      usageLines (initState scenario1Input).input :=
  claim_C2 noPoly (initState scenario1Input) oversizedLid
    { lines := [rbCatalogLine], comment := none } rbCatalogLine [] "S1" s1Line.values
    10000 2 (by decide) (by decide) (by decide) (by decide) (by decide) (by decide)
    (by decide) (by decide) (by decide) (by decide)

/-- C6: a LID whose catalog structural-category code is not "RB" raises no
error, leaves the SUBCATCHMENTS section untouched, logs one warning, and
still appends its usage record to the LID-usage section. -/
theorem claim_C6 (contains : Polygon → Point → Bool) (st : InjState)
    (lid : Lid) (ctrl : SwmmSection) (d0 : Line) (rest : List Line)
    (sc : String) (code : Value)
    (hmap : lid.location.map = none)
    (hsub : lid.location.subcatchment = some sc)
    (hdt : lid.drainTo = none)
    (hctrl : st.input.lidControls = some ctrl)
    (hfType : ctrl.lines.filter
      (fun line => lineMatchesName lidControlsNameIndex lid.type line) = d0 :: rest)
    (hcode : d0.values.getD lidControlsTypeIndex (Value.s "") = code)
    (hnotRB : code ≠ Value.s "RB") :
    (injectLid contains st lid).2 = none ∧
    (injectLid contains st lid).1.input.subcatchments = st.input.subcatchments ∧
    (injectLid contains st lid).1.warnings =
      st.warnings ++ [unsupportedTypeWarning code] ∧
    usageLines (injectLid contains st lid).1.input =
      usageLines st.input ++
        [{ values := usageValues sc none lid, comment := none }] := by
  have hloc : resolveLidLocation contains st lid = (st, .ok lid.location) := by
    simp [resolveLidLocation, hmap]
  have hdt2 : resolveLidDrainTo contains st lid = (st, .ok none) := by
    simp [resolveLidDrainTo, hdt]
  have happ := appendUsage_ok
    ⟨st.input, (fun t => if t = lid.type then st.counter lid.type + 1 else st.counter t),
      st.warnings ++ [unsupportedTypeWarning code], st.scPolygons⟩
    lid.location none lid sc hsub
  simp only [injectLid, hloc, hdt2, hctrl, hfType, hcode, if_neg hnotRB]
  exact ⟨happ.1, happ.2.1, by rw [happ.2.2.1], happ.2.2.2⟩

/-- C6 witness: injecting the "IT" LID leaves the zones untouched, warns, and
appends exactly one usage record. -/
theorem claim_C6_witness :
    (injectLid noPoly (initState scenario6Input) itLid).2 = none ∧
    (injectLid noPoly (initState scenario6Input) itLid).1.input.subcatchments =
      (initState scenario6Input).input.subcatchments ∧
    (injectLid noPoly (initState scenario6Input) itLid).1.warnings =
      (initState scenario6Input).warnings ++ [unsupportedTypeWarning (Value.s "IT")] ∧
    usageLines (injectLid noPoly (initState scenario6Input) itLid).1.input =
      usageLines (initState scenario6Input).input ++
        [{ values := usageValues "S1" none itLid, comment := none }] :=
  claim_C6 noPoly (initState scenario6Input) itLid
    { lines := [itCatalogLine], comment := none } itCatalogLine [] "S1" (Value.s "IT")
    (by decide) (by decide) (by decide) (by decide) (by decide) (by decide) (by decide)

/-- C8: in the SI model with host zone "S1" of area 2.0 ha and 80 %
impervious, injecting one rain-barrel LID of 50 m² (1 unit) located in "S1"
completes without error and produces exactly the new zone "S1##RB_1" with
area 0.005 ha and impervious fraction 0, leaving "S1" with area 1.995 ha and
a recomputed impervious fraction 31900/399 strictly below 80, all areas
non-negative. -/
theorem claim_C8 :
    (injectParametersIntoInput noPoly ⟨[scenario1Lid]⟩ scenario1Input).2 = none ∧
    (scLines (injectParametersIntoInput noPoly ⟨[scenario1Lid]⟩
        scenario1Input).1.input).map Line.values =
      [[Value.s "S1", Value.s "R1", Value.s "Out1", Value.n 1.995,
          Value.n (31900/399), Value.n 500, Value.n (1/2), Value.n 0],
        [Value.s "S1##RB_1", Value.s "R1", Value.s "Out1", Value.n 0.005,
          Value.n 0, Value.n 500, Value.n (1/2), Value.n 0]] ∧
    (31900 : ℚ)/399 < 80 ∧ (0 : ℚ) ≤ 1.995 ∧ (0 : ℚ) ≤ 0.005 := by
  decide

theorem injectLids_counter (contains : Polygon → Point → Bool) :
    ∀ (lids : List Lid) (st st' : InjState),
    injectLids contains st lids = (st', none) →
    ∀ ty, st'.counter ty = st.counter ty + countType lids ty := by
  intro lids
  induction lids with
  | nil =>
    intro st st' h ty
    rw [injectLids] at h
    rw [Prod.mk.injEq] at h
    obtain ⟨rfl, -⟩ := h
    simp [countType]
  | cons lid rest ih =>
    intro st st' h ty
    rw [injectLids] at h
    split at h
    · rename_i st1 heq
      have hc := injectLid_counter contains st lid st1 heq
      have hrec := ih st1 st' h ty
      have hc1 : st1.counter ty =
          if ty = lid.type then st.counter lid.type + 1 else st.counter ty :=
        congrFun hc ty
      by_cases hty : ty = lid.type
      · subst hty
        have hct : countType (lid :: rest) lid.type = countType rest lid.type + 1 := by
          simp [countType, List.filter_cons]
        rw [hrec, hc1, hct, if_pos rfl]
        omega
      · have hct : countType (lid :: rest) ty = countType rest ty := by
          have hne : ¬ lid.type = ty := fun hh => hty hh.symm
          simp [countType, List.filter_cons, hne]
        rw [hrec, hc1, hct, if_neg hty]
    · rename_i heq
      rw [Prod.mk.injEq] at h
      exact absurd h.2 (Option.some_ne_none _)

/-- C5: instance-id and child-zone-name generation.  (1) Over any
error-free run, the per-type counter grows by exactly the number of LIDs of
that type in the document, starting from its initial value — so the i-th LID
of type T in document order computes the id `mkLidId T i` (`T_i`, first
instance 1).  (2) Ids of the same type with different counts are distinct
strings.  (3) The generated child-zone name is never equal to any
subcatchment name present in the model at the time it is chosen. -/
theorem claim_C5 :
    (∀ (contains : Polygon → Point → Bool) (st : InjState) (lids : List Lid)
        (st' : InjState),
      injectLids contains st lids = (st', none) →
      ∀ ty, st'.counter ty = st.counter ty + countType lids ty) ∧
    (∀ (ty : String) (i j : ℕ), i ≠ j → mkLidId ty i ≠ mkLidId ty j) ∧
    (∀ (inp : SwmmInput) (base id : String),
      getSubcatchmentDefinition inp
        (generateLidScName inp base id (nameSearchFuel inp) 0) = none) :=
  ⟨fun contains st lids st' h => injectLids_counter contains lids st st' h,
    mkLidId_ne, generateLidScName_fresh⟩

/-- C5 witness: the "IT" run bumps the "IT" counter from 0 to 1 (so the only
LID of that type receives id "IT_1"), ids "RB_1" and "RB_2" differ, and the
child name generated over the S1 model is absent from it. -/
theorem claim_C5_witness :
    ((injectLids noPoly (initState scenario6Input) [itLid]).1.counter "IT" =
      (initState scenario6Input).counter "IT" + countType [itLid] "IT") ∧
    mkLidId "RB" 1 ≠ mkLidId "RB" 2 ∧
    getSubcatchmentDefinition scenario1Input
      (generateLidScName scenario1Input "S1" "RB_1"
        (nameSearchFuel scenario1Input) 0) = none := by
  refine ⟨?_, claim_C5.2.1 "RB" 1 2 (by decide), claim_C5.2.2 scenario1Input "S1" "RB_1"⟩
  have h2 : (injectLids noPoly (initState scenario6Input) [itLid]).2 = none := by decide
  exact claim_C5.1 noPoly (initState scenario6Input) [itLid]
    (injectLids noPoly (initState scenario6Input) [itLid]).1 (by rw [← h2]) "IT"

/-! ### Claim C3: preservation of the zone invariants -/

theorem scLines_congr (inp1 inp2 : SwmmInput)
    (h : inp1.subcatchments = inp2.subcatchments) : scLines inp1 = scLines inp2 := by
  unfold scLines
  rw [h]

theorem scLines_setSubcatchmentValues (inp : SwmmInput) (n : String) (v : List Value) :
    scLines (setSubcatchmentValues inp n v) = replaceFirstScLine (scLines inp) n v := by
  unfold setSubcatchmentValues scLines
  cases h : inp.subcatchments with
  | none => simp [h, replaceFirstScLine]
  | some sec => simp [h]

theorem scLines_appendSubcatchmentLine (inp : SwmmInput) (line : Line)
    (sec : SwmmSection) (h : inp.subcatchments = some sec) :
    scLines (appendSubcatchmentLine inp line) = scLines inp ++ [line] := by
  unfold appendSubcatchmentLine scLines
  rw [h]

theorem subcatchments_setSubcatchmentValues (inp : SwmmInput) (n : String)
    (v : List Value) (sec : SwmmSection) (h : inp.subcatchments = some sec) :
    ∃ sec', (setSubcatchmentValues inp n v).subcatchments = some sec' := by
  unfold setSubcatchmentValues
  rw [h]
  exact ⟨_, rfl⟩

theorem getSubcatchmentDefinition_some (inp : SwmmInput) (name : String)
    (vals : List Value) (h : getSubcatchmentDefinition inp name = some vals) :
    (∃ sec, inp.subcatchments = some sec) ∧
    ∃ l₀, (scLines inp).find? (lineMatchesName scNameIndex name) = some l₀ ∧
      l₀.values = vals ∧ l₀ ∈ scLines inp ∧
      lineName? l₀ = some (Value.s name) := by
  unfold getSubcatchmentDefinition at h
  split at h
  · exact absurd h (by simp)
  rename_i sec hsec
  obtain ⟨l₀, hfind, hvals⟩ : ∃ l₀,
      sec.lines.find? (lineMatchesName scNameIndex name) = some l₀ ∧ l₀.values = vals := by
    cases hf : sec.lines.find? (lineMatchesName scNameIndex name) with
    | none => rw [hf] at h; exact absurd h (by simp)
    | some l₀ =>
      rw [hf] at h
      exact ⟨l₀, rfl, by simpa using h⟩
  have hsc : scLines inp = sec.lines := by simp [scLines, hsec]
  have hmem : l₀ ∈ scLines inp := by
    rw [hsc]
    exact List.mem_of_find?_eq_some hfind
  have hmatch : lineMatchesName scNameIndex name l₀ = true := by
    have := List.find?_some hfind
    simpa using this
  have hname : lineName? l₀ = some (Value.s name) := by
    simp only [lineMatchesName, Bool.and_eq_true, decide_eq_true_eq] at hmatch
    exact hmatch.2
  exact ⟨⟨sec, hsec⟩, l₀, by rw [hsc]; exact hfind, hvals, hmem, hname⟩

theorem replaceFirst_of_find? (ls : List Line) (name : String) (v : List Value)
    (l₀ : Line) (hf : ls.find? (lineMatchesName scNameIndex name) = some l₀) :
    ∀ l ∈ replaceFirstScLine ls name v, l ∈ ls ∨ l = { l₀ with values := v } := by
  induction ls with
  | nil => simp [replaceFirstScLine]
  | cons x xs ih =>
    by_cases hm : lineMatchesName scNameIndex name x
    · have hx : l₀ = x := by
        rw [List.find?_cons_of_pos _ hm] at hf
        exact (Option.some.inj hf).symm
      subst hx
      intro l hl
      rw [replaceFirstScLine, if_pos hm] at hl
      rcases List.mem_cons.mp hl with rfl | hmem
      · exact Or.inr rfl
      · exact Or.inl (List.mem_cons_of_mem _ hmem)
    · rw [List.find?_cons_of_neg _ hm] at hf
      intro l hl
      rw [replaceFirstScLine, if_neg hm] at hl
      rcases List.mem_cons.mp hl with rfl | hmem
      · exact Or.inl (List.mem_cons_self _ _)
      · rcases ih hf l hmem with h1 | h1
        · exact Or.inl (List.mem_cons_of_mem _ h1)
        · exact Or.inr h1

theorem scAreaPerLidArea_pos (s : String) (q : ℚ)
    (h : scAreaPerLidArea s = some q) : 0 < q := by
  unfold scAreaPerLidArea at h
  split at h <;> simp_all <;> norm_num [← h]

theorem injectLid_subcatchments (contains : Polygon → Point → Bool) (st : InjState)
    (lid : Lid) (st1 : InjState)
    (h : injectLid contains st lid = (st1, none)) :
    scLines st1.input = scLines st.input ∨
    ∃ baseName baseVals lidScName lidId factor lidScVals newBaseVals,
      getSubcatchmentDefinition st.input baseName = some baseVals ∧
      scAreaPerLidArea st.input.unitSystem = some factor ∧
      splitZone lidId baseName lidScName baseVals
        ((lid.number : ℚ) * lid.area / factor) = .ok (lidScVals, newBaseVals) ∧
      scLines st1.input =
        replaceFirstScLine (scLines st.input) baseName newBaseVals ++
          [{ values := lidScVals,
             comment := some (Nat.repr lid.number
               ++ " LID units. (Added by OSTRICH-SWMM.)") }] := by
  unfold injectLid at h
  split at h
  · exact absurd (congrArg Prod.snd h) (Option.some_ne_none _)
  rename_i stA loc heqA
  have hA : stA.input = st.input := by
    have h1 : (resolveLidLocation contains st lid).1 = stA := congrArg Prod.fst heqA
    rw [← h1]
    exact (resolveLidLocation_state contains st lid).1
  split at h
  · exact absurd (congrArg Prod.snd h) (Option.some_ne_none _)
  rename_i stB drain heqB
  have hB : stB.input = st.input := by
    have h1 : (resolveLidDrainTo contains stA lid).1 = stB := congrArg Prod.fst heqB
    rw [← h1, (resolveLidDrainTo_state contains stA lid).1]
    exact hA
  split at h
  · exact absurd (congrArg Prod.snd h) (Option.some_ne_none _)
  rename_i ctrl hctrl
  dsimp only at h
  split at h
  · exact absurd (congrArg Prod.snd h) (Option.some_ne_none _)
  rename_i d0 rest hdefs
  split at h
  · -- rain-barrel branch
    unfold injectRbLid at h
    split at h
    · exact absurd (congrArg Prod.snd h) (Option.some_ne_none _)
    rename_i baseName hbase
    split at h
    · exact absurd (congrArg Prod.snd h) (Option.some_ne_none _)
    rename_i baseVals hhost
    dsimp only at h
    split at h
    · exact absurd (congrArg Prod.snd h) (Option.some_ne_none _)
    rename_i factor hfac
    split at h
    · exact absurd (congrArg Prod.snd h) (Option.some_ne_none _)
    rename_i lidScVals newBaseVals hsplit
    right
    have hhost' : getSubcatchmentDefinition st.input baseName = some baseVals := by
      rw [← hB]
      exact hhost
    have hfac' : scAreaPerLidArea st.input.unitSystem = some factor := by
      rw [← hB]
      exact hfac
    refine ⟨baseName, baseVals, _, _, factor, lidScVals, newBaseVals, hhost', hfac',
      hsplit, ?_⟩
    have hs1 := congrArg (fun p => p.1.input.subcatchments) h
    simp only [appendUsage_subcatchments] at hs1
    obtain ⟨sec, hsec⟩ := (getSubcatchmentDefinition_some _ _ _ hhost).1
    obtain ⟨sec', hsec'⟩ :=
      subcatchments_setSubcatchmentValues stB.input baseName newBaseVals sec hsec
    have hlines : scLines st1.input =
        scLines (appendSubcatchmentLine
          (setSubcatchmentValues stB.input baseName newBaseVals)
          { values := lidScVals,
            comment := some (Nat.repr lid.number
              ++ " LID units. (Added by OSTRICH-SWMM.)") }) :=
      (scLines_congr _ _ hs1).symm
    rw [hlines, scLines_appendSubcatchmentLine _ _ sec' hsec',
      scLines_setSubcatchmentValues, scLines_congr _ _ (congrArg SwmmInput.subcatchments hB)]
  · -- unsupported-type branch
    left
    have hs1 := congrArg (fun p => p.1.input.subcatchments) h
    simp only [appendUsage_subcatchments] at hs1
    exact (scLines_congr _ _ hs1).symm.trans
      (scLines_congr _ _ (congrArg SwmmInput.subcatchments hB))

theorem CreatedZoneStrong.ok (l : Line) (h : CreatedZoneStrong l) : CreatedZoneOk l :=
  ⟨h.1, 0, h.2, le_refl 0, by norm_num⟩

theorem splitZone_fields (lidId baseName lidScName : String) (baseVals : List Value)
    (L : ℚ) (child newBase : List Value)
    (hok : splitZone lidId baseName lidScName baseVals L = .ok (child, newBase))
    (hL : 0 ≤ L) :
    newBase.get? scNameIndex = baseVals.get? scNameIndex ∧
    (∃ a, areaVal newBase = some a ∧ 0 ≤ a) ∧
    (∃ f, impervVal newBase = some f ∧ 0 ≤ f) ∧
    areaVal child = some L ∧
    impervVal child = some 0 ∧
    (impervVal baseVals = some 0 → impervVal newBase = some 0) := by
  obtain ⟨A, f, hA, hf, hAL, hz, hneg, hchild, hnew⟩ :=
    splitZone_ok lidId baseName lidScName baseVals L child newBase hok
  have h3 : (3:ℕ) < baseVals.length := toRat?_some_lt _ _ _ hA
  have h4 : (4:ℕ) < baseVals.length := toRat?_some_lt _ _ _ hf
  rw [not_lt] at hAL hneg
  have hApos : 0 < A - L := lt_of_le_of_ne hAL (Ne.symm hz)
  subst hchild hnew
  have hnameEq : ((baseVals.set scAreaIndex (Value.n (A - L))).set scImpervIndex
      (Value.n ((f / 100 * A - L) / (A - L) * 100))).get? scNameIndex =
      baseVals.get? scNameIndex := by
    simp [List.get?_eq_getElem?, List.getElem?_set, scNameIndex, scAreaIndex,
      scImpervIndex]
  have hnewA : areaVal ((baseVals.set scAreaIndex (Value.n (A - L))).set scImpervIndex
      (Value.n ((f / 100 * A - L) / (A - L) * 100))) = some (A - L) := by
    simp [areaVal, List.getD, List.getElem?_set, scAreaIndex, scImpervIndex, h3,
      Value.toRat?]
  have hnewI : impervVal ((baseVals.set scAreaIndex (Value.n (A - L))).set scImpervIndex
      (Value.n ((f / 100 * A - L) / (A - L) * 100))) =
      some ((f / 100 * A - L) / (A - L) * 100) := by
    simp [impervVal, List.getD, List.getElem?_set, scAreaIndex, scImpervIndex, h4,
      Value.toRat?]
  refine ⟨hnameEq, ⟨A - L, hnewA, hAL⟩, ⟨_, hnewI, hneg⟩, ?_, ?_, ?_⟩
  · simp [areaVal, List.getD, List.getElem?_set, scNameIndex, scAreaIndex,
      scImpervIndex, h3, Value.toRat?]
  · simp [impervVal, List.getD, List.getElem?_set, scNameIndex, scAreaIndex,
      scImpervIndex, h4, Value.toRat?]
  · intro h0
    unfold impervVal at h0
    rw [hf] at h0
    obtain rfl : f = 0 := Option.some.inj h0
    have hS : (0 / 100 * A - L) ≤ 0 := by
      have : (0:ℚ) / 100 * A = 0 := by ring
      linarith [this]
    have hdiv : (0 / 100 * A - L) / (A - L) ≤ 0 :=
      div_nonpos_of_nonpos_of_nonneg hS hApos.le
    have hle : (0 / 100 * A - L) / (A - L) * 100 ≤ 0 := by nlinarith
    have heq0 : (0 / 100 * A - L) / (A - L) * 100 = 0 := le_antisymm hle hneg
    rw [hnewI, heq0]

theorem injectLid_inv (contains : Polygon → Point → Bool) (st st1 : InjState)
    (lid : Lid) (orig : List (Option Value))
    (h : injectLid contains st lid = (st1, none)) (harea : 0 ≤ lid.area)
    (h1 : ∀ l ∈ scLines st.input, ZoneOk l)
    (h2 : ∀ l ∈ scLines st.input, lineName? l ∉ orig → CreatedZoneStrong l) :
    (∀ l ∈ scLines st1.input, ZoneOk l) ∧
    (∀ l ∈ scLines st1.input, lineName? l ∉ orig → CreatedZoneStrong l) := by
  rcases injectLid_subcatchments contains st lid st1 h with hsame |
    ⟨baseName, baseVals, lidScName, lidId, factor, lidScVals, newBase,
      hhost, hfac, hsplit, hlines⟩
  · rw [hsame]
    exact ⟨h1, h2⟩
  have hLpos : 0 ≤ (lid.number : ℚ) * lid.area / factor :=
    div_nonneg (mul_nonneg (Nat.cast_nonneg _) harea)
      (scAreaPerLidArea_pos _ _ hfac).le
  obtain ⟨hname, ⟨a', hA', ha'⟩, ⟨f', hf', hf'0⟩, hcA, hcI, hcreated⟩ :=
    splitZone_fields lidId baseName lidScName baseVals _ lidScVals newBase
      hsplit hLpos
  obtain ⟨-, l₀, hfind, hvals, hmem, hname₀⟩ := getSubcatchmentDefinition_some _ _ _ hhost
  rw [hlines]
  have hrep := replaceFirst_of_find? (scLines st.input) baseName newBase l₀ hfind
  have hnameRep : lineName? { l₀ with values := newBase } = lineName? l₀ := by
    unfold lineName?
    rw [show ({ l₀ with values := newBase } : Line).values = newBase from rfl, hname, hvals]
  constructor
  · intro l hl
    rcases List.mem_append.mp hl with hl1 | hl2
    · rcases hrep l hl1 with hmem' | rfl
      · exact h1 l hmem'
      · refine ⟨?_, ?_⟩
        · show OptNonneg (areaVal newBase)
          rw [hA']
          exact ha'
        · show OptNonneg (impervVal newBase)
          rw [hf']
          exact hf'0
    · have hl2' := List.mem_singleton.mp hl2
      subst hl2'
      refine ⟨?_, ?_⟩
      · show OptNonneg (areaVal lidScVals)
        rw [hcA]
        exact hLpos
      · show OptNonneg (impervVal lidScVals)
        rw [hcI]
        exact le_refl 0
  · intro l hl hnot
    rcases List.mem_append.mp hl with hl1 | hl2
    · rcases hrep l hl1 with hmem' | rfl
      · exact h2 l hmem' hnot
      · rw [hnameRep] at hnot
        have hstrong := h2 l₀ hmem hnot
        have h0 : impervVal baseVals = some 0 := by
          rw [← hvals]
          exact hstrong.2
        refine ⟨⟨a', ?_, ha'⟩, ?_⟩
        · show areaVal newBase = some a'
          exact hA'
        · show impervVal newBase = some 0
          exact hcreated h0
    · have hl2' := List.mem_singleton.mp hl2
      subst hl2'
      exact ⟨⟨_, hcA, hLpos⟩, hcI⟩

theorem injectLids_inv (contains : Polygon → Point → Bool) :
    ∀ (lids : List Lid) (st st' : InjState) (orig : List (Option Value)),
    injectLids contains st lids = (st', none) →
    (∀ lid ∈ lids, 0 ≤ lid.area) →
    (∀ l ∈ scLines st.input, ZoneOk l) →
    (∀ l ∈ scLines st.input, lineName? l ∉ orig → CreatedZoneStrong l) →
    (∀ l ∈ scLines st'.input, ZoneOk l) ∧
    (∀ l ∈ scLines st'.input, lineName? l ∉ orig → CreatedZoneStrong l) := by
  intro lids
  induction lids with
  | nil =>
    intro st st' orig h _ h1 h2
    rw [injectLids] at h
    rw [Prod.mk.injEq] at h
    obtain ⟨rfl, -⟩ := h
    exact ⟨h1, h2⟩
  | cons lid rest ih =>
    intro st st' orig h hval h1 h2
    rw [injectLids] at h
    split at h
    · rename_i st1 heq
      have hstep := injectLid_inv contains st st1 lid orig heq
        (hval lid (List.mem_cons_self _ _)) h1 h2
      exact ih st1 st' orig h (fun l hl => hval l (List.mem_cons_of_mem _ hl))
        hstep.1 hstep.2
    · rename_i heq
      rw [Prod.mk.injEq] at h
      exact absurd h.2 (Option.some_ne_none _)

/-- C3: on every parameter document that passes schema validation (areas
non-negative) and on which injection completes without error, every zone
record the injection creates (recognizable by a name absent from the
original model) has area ≥ 0 and impervious fraction in [0, 1], and —
provided every pre-existing zone had non-negative area and impervious
fraction — no zone record of the resulting model holds a negative area or a
negative impervious fraction. -/
theorem claim_C3 (contains : Polygon → Point → Bool) (params : InputParameters)
    (inp : SwmmInput) (st' : InjState)
    (hval : ValidParameters params)
    (hrun : injectParametersIntoInput contains params inp = (st', none))
    (hinit : ∀ l ∈ scLines inp, ZoneOk l) :
    (∀ l ∈ scLines st'.input, ZoneOk l) ∧
    (∀ l ∈ scLines st'.input,
      lineName? l ∉ (scLines inp).map lineName? → CreatedZoneOk l) := by
  have h2init : ∀ l ∈ scLines (initState inp).input,
      lineName? l ∉ (scLines inp).map lineName? → CreatedZoneStrong l := by
    intro l hl hnot
    exact absurd (List.mem_map_of_mem lineName? hl) hnot
  have := injectLids_inv contains params.lids (initState inp) st'
    ((scLines inp).map lineName?) hrun hval hinit h2init
  exact ⟨this.1, fun l hl hnot => CreatedZoneStrong.ok l (this.2 l hl hnot)⟩

/-- C3 witness: the scenario-1 run satisfies the invariants: hypotheses hold
concretely and the conclusion covers both the mutated "S1" and the created
"S1##RB_1". -/
theorem claim_C3_witness :
    ValidParameters ⟨[scenario1Lid]⟩ ∧
    ((∀ l ∈ scLines (injectParametersIntoInput noPoly ⟨[scenario1Lid]⟩
        scenario1Input).1.input, ZoneOk l) ∧
      (∀ l ∈ scLines (injectParametersIntoInput noPoly ⟨[scenario1Lid]⟩
          scenario1Input).1.input,
        lineName? l ∉ (scLines scenario1Input).map lineName? → CreatedZoneOk l)) := by
  refine ⟨by decide, ?_⟩
  have h2 : (injectParametersIntoInput noPoly ⟨[scenario1Lid]⟩ scenario1Input).2 =
      none := by decide
  exact claim_C3 noPoly ⟨[scenario1Lid]⟩ scenario1Input
    (injectParametersIntoInput noPoly ⟨[scenario1Lid]⟩ scenario1Input).1
    (by decide) (by rw [← h2]) (by decide)
